import Mathlib

/-!
Verification of the `postprocess.py` pandoc-HTML postprocessor of the
bassclef repository.

A document is modelled as a list of lines, each line a `List Char`
(Python strings), with trailing newline characters kept inside the
lines, exactly as `[line for line in sys.stdin]` produces them.

Python's `str.replace` (replace every non-overlapping occurrence,
scanning left to right) is modelled by `listReplace`.  The regular
expressions used by the script are sequences of literals, lazy stars
(`(.*?)`, `[^"]*?`), greedy plus classes (`\d+`, `\s+`) and a two-way
literal alternation (`src|href`); `matchToks` implements exactly this
fragment with Python's backtracking order (lazy groups shortest first,
greedy classes longest first, alternatives in listed order), and
`reSearch` implements `re.search`'s leftmost-position scan.  Recursions
are structural over an explicit fuel so that every definition evaluates
inside the kernel; the fuel bound `reFuel` strictly dominates the depth
of the backtracking recursion (each step either consumes an input
character or removes a token/alternative, and every pattern of the
script weighs far less than 40).
-/

set_option maxRecDepth 100000

/-- A Python string: a list of characters. -/
abbrev Line := List Char

/-- ASCII decimal digit, the characters matched by `\d` on this input. -/
def isDigitChar (c : Char) : Bool := '0' ≤ c && c ≤ '9'

/-- ASCII whitespace, the characters matched by `\s` (and stripped by
`str.rstrip`) on this input. -/
def isSpaceChar (c : Char) : Bool :=
  c == ' ' || c == '\t' || c == '\n' || c == '\r' ||
  c == Char.ofNat 11 || c == Char.ofNat 12

/-- Fueled worker for `listReplace`.  With fuel at least the length of
the subject string it performs Python's `str.replace`: scan left to
right, and at each position where `old` is a prefix emit `new` and skip
past the occurrence. -/
def listReplaceF (old new : List Char) : Nat → List Char → List Char
  | _, [] => []
  | 0, s => s
  | fuel + 1, c :: rest =>
    if old.isPrefixOf (c :: rest) then
      new ++ listReplaceF old new fuel (rest.drop (old.length - 1))
    else
      c :: listReplaceF old new fuel rest

/-- Python's `s.replace(old, new)`: replace every non-overlapping
occurrence of `old` in `s` by `new`, scanning left to right. -/
def listReplace (old new s : List Char) : List Char :=
  listReplaceF old new s.length s

/-- Python's `old in s` for strings: does `old` occur as a contiguous
substring of `s`? -/
def contains_sub (sub : Line) : Line → Bool
  | [] => sub.isEmpty
  | c :: rest => sub.isPrefixOf (c :: rest) || contains_sub sub rest

/-- One token of the regular-expression fragment used by the script. -/
inductive Tok where
  /-- a literal string -/
  | lit : List Char → Tok
  /-- a capturing lazy star over any character not in the list:
  `(.*?)` is `lazyStar ['\n']`, `([^"]*?)` is `lazyStar ['"']` -/
  | lazyStar : List Char → Tok
  /-- a capturing greedy star over a character class (internal, used to
  run the tail of `plusGreedy`) -/
  | starGreedy : (Char → Bool) → Tok
  /-- a capturing greedy plus over a character class: `(\d+)`, `(\s+)` -/
  | plusGreedy : (Char → Bool) → Tok
  /-- a capturing alternation of literals: `(src|href)` -/
  | alternation : List (List Char) → Tok

/-- Backtracking matcher for a token sequence anchored at the start of
the input, exploring alternatives in Python's order: lazy stars
shortest first, greedy classes longest first, alternation branches in
listed order.  Returns the list of captured groups (in token order) and
the remaining input after the match. -/
def matchToks : Nat → List Tok → List Char → Option (List (List Char) × List Char)
  | _, [], s => some ([], s)
  | 0, _ :: _, _ => none
  | fuel + 1, Tok.lit l :: toks, s =>
    if l.isPrefixOf s then matchToks fuel toks (s.drop l.length) else none
  | fuel + 1, Tok.lazyStar excl :: toks, s =>
    match matchToks fuel toks s with
    | some (gs, rest) => some ([] :: gs, rest)
    | none =>
      match s with
      | [] => none
      | c :: srest =>
        if excl.contains c then none
        else
          match matchToks fuel (Tok.lazyStar excl :: toks) srest with
          | some (g :: gs, rest) => some ((c :: g) :: gs, rest)
          | _ => none
  | fuel + 1, Tok.starGreedy p :: toks, s =>
    match s with
    | c :: srest =>
      if p c then
        match matchToks fuel (Tok.starGreedy p :: toks) srest with
        | some (g :: gs, rest) => some ((c :: g) :: gs, rest)
        | _ =>
          match matchToks fuel toks s with
          | some (gs, rest) => some ([] :: gs, rest)
          | none => none
      else
        match matchToks fuel toks s with
        | some (gs, rest) => some ([] :: gs, rest)
        | none => none
    | [] =>
      match matchToks fuel toks s with
      | some (gs, rest) => some ([] :: gs, rest)
      | none => none
  | fuel + 1, Tok.plusGreedy p :: toks, s =>
    match s with
    | c :: srest =>
      if p c then
        match matchToks fuel (Tok.starGreedy p :: toks) srest with
        | some (g :: gs, rest) => some ((c :: g) :: gs, rest)
        | _ => none
      else none
    | [] => none
  | _ + 1, Tok.alternation [] :: _, _ => none
  | fuel + 1, Tok.alternation (a :: as) :: toks, s =>
    if a.isPrefixOf s then
      match matchToks fuel toks (s.drop a.length) with
      | some (gs, rest) => some (a :: gs, rest)
      | none => matchToks fuel (Tok.alternation as :: toks) s
    else matchToks fuel (Tok.alternation as :: toks) s

/-- Fuel amply dominating the depth of `matchToks`' recursion for the
patterns of the script (each recursive step consumes an input character
or removes a token or alternative; every pattern weighs under 40). -/
def reFuel (s : List Char) : Nat := (s.length + 1) * 40

/-- Run the matcher at the current position, returning the matched text
(Python's group 0 / the outer capturing group) and the inner groups. -/
def matchRun (toks : List Tok) (s : List Char) : Option (List Char × List (List Char)) :=
  match matchToks (reFuel s) toks s with
  | some (gs, rest) => some (s.take (s.length - rest.length), gs)
  | none => none

/-- Python's `re.search`: try the anchored matcher at every start
position from left to right. -/
def reSearch (toks : List Tok) : List Char → Option (List Char × List (List Char))
  | [] => matchRun toks []
  | c :: srest =>
    match matchRun toks (c :: srest) with
    | some r => some r
    | none => reSearch toks srest

/-! ### The patterns of `postprocess.py` -/

/-- Pattern `<title>(\d+)// (.*?)</title>`. -/
def titleToks : List Tok :=
  [Tok.lit "<title>".data, Tok.plusGreedy isDigitChar, Tok.lit "// ".data,
   Tok.lazyStar ['\n'], Tok.lit "</title>".data]

/-- Pattern `<meta (.*?) content="(\d+)// (.*?)" />`. -/
def metaToks : List Tok :=
  [Tok.lit "<meta ".data, Tok.lazyStar ['\n'], Tok.lit " content=\"".data,
   Tok.plusGreedy isDigitChar, Tok.lit "// ".data,
   Tok.lazyStar ['\n'], Tok.lit "\" />".data]

/-- Pattern `(\s+)<h1 (.*?)>(\d+)// (.*?)</h1>`. -/
def h1Toks : List Tok :=
  [Tok.plusGreedy isSpaceChar, Tok.lit "<h1 ".data, Tok.lazyStar ['\n'],
   Tok.lit ">".data, Tok.plusGreedy isDigitChar, Tok.lit "// ".data,
   Tok.lazyStar ['\n'], Tok.lit "</h1>".data]

/-- Pattern `((src|href)="/images/(.*?)")`. -/
def imgUrlToks : List Tok :=
  [Tok.alternation ["src".data, "href".data], Tok.lit "=\"/images/".data,
   Tok.lazyStar ['\n'], Tok.lit "\"".data]

/-- Pattern `(<img src="/images/sized/(.*?)" .*? />)`. -/
def linkToks : List Tok :=
  [Tok.lit "<img src=\"/images/sized/".data, Tok.lazyStar ['\n'],
   Tok.lit "\" ".data, Tok.lazyStar ['\n'], Tok.lit " />".data]

/-- Pattern `(<a href="([^"]*?)"><span class="fa (.*?)">)`. -/
def tabToks : List Tok :=
  [Tok.lit "<a href=\"".data, Tok.lazyStar ['"'],
   Tok.lit "\"><span class=\"fa ".data, Tok.lazyStar ['\n'], Tok.lit "\">".data]

/-- Pattern `(<a href="([^"]*?)" (.*?)><span class="fa (.*?)">)`. -/
def tooltipToks : List Tok :=
  [Tok.lit "<a href=\"".data, Tok.lazyStar ['"'], Tok.lit "\" ".data,
   Tok.lazyStar ['\n'], Tok.lit "><span class=\"fa ".data,
   Tok.lazyStar ['\n'], Tok.lit "\">".data]

/-! ### The stages of `postprocess.py` -/

/-- The over-encoded fragment repaired by `fix_bugs_in_old_pandoc`. -/
def OLD_SPAN : Line :=
  "&lt;span class=&quot;fa fa-envelope badge&quot;&gt;&lt;/span&gt;".data

/-- Its decoded form. -/
def NEW_SPAN : Line := "<span class=\"fa fa-envelope badge\"></span>".data

/-- `fix_bugs_in_old_pandoc`: decode the legacy double-encoded badge
span on every line (`str.replace`, all occurrences). -/
def fix_bugs_in_old_pandoc (lines : List Line) : List Line :=
  lines.map (fun line => listReplace OLD_SPAN NEW_SPAN line)

/-- The `<title>` numbering fix of `fix_bugs_in_new_pandoc`: if the
title pattern matches, the whole line is replaced by
`'<title>%s. %s</title>' % (num, title)`. -/
def fixTitle (line : Line) : Line :=
  match reSearch titleToks line with
  | some (_, [num, title]) =>
    "<title>".data ++ num ++ ". ".data ++ title ++ "</title>".data
  | _ => line

/-- The `<meta>` numbering fix: if the meta pattern matches, the whole
line is replaced by `'<meta %s content="%s. %s" />' % (attrs, num, title)`. -/
def fixMeta (line : Line) : Line :=
  match reSearch metaToks line with
  | some (_, [attrs, num, title]) =>
    "<meta ".data ++ attrs ++ " content=\"".data ++ num ++ ". ".data ++
      title ++ "\" />".data
  | _ => line

/-- The `<h1>` numbering fix: if the h1 pattern matches, the whole line
is replaced by `'%s<h1 %s>%s. %s</h1>' % (spaces, attrs, num, title)`. -/
def fixH1 (line : Line) : Line :=
  match reSearch h1Toks line with
  | some (_, [spaces, attrs, num, title]) =>
    spaces ++ "<h1 ".data ++ attrs ++ ">".data ++ num ++ ". ".data ++
      title ++ "</h1>".data
  | _ => line

/-- `fix_bugs_in_new_pandoc`: the six per-line passes in source order —
two smart-quote replaces, the title, meta and h1 numbering fixes, and
the `<p><br /></p>` normalization. -/
def fix_bugs_in_new_pandoc (lines : List Line) : List Line :=
  let l1 := lines.map (fun line => listReplace "&lt;a href=“".data "<a href=\"".data line)
  let l2 := l1.map (fun line => listReplace "”&gt;".data "\">".data line)
  let l3 := l2.map fixTitle
  let l4 := l3.map fixMeta
  let l5 := l4.map fixH1
  l5.map (fun line => listReplace "<p><br /></p>".data "<br />\n".data line)

/-- `adjust_image_urls`: search the first `src`/`href` attribute under
`/images/` and `str.replace` the matched attribute text with the
web-root-prefixed form.  The `config('webroot')` lookup is an external
dependency and is passed in as `webroot`. -/
def adjust_image_urls (webroot : Line) (lines : List Line) : List Line :=
  lines.map (fun line =>
    match reSearch imgUrlToks line with
    | some (old, [tag, path]) =>
      listReplace old
        (tag ++ "=\"".data ++ webroot ++ "/images/".data ++ path ++ "\"".data)
        line
    | _ => line)

/-- One line of `link_images`: wrap the first sized-image tag in an
anchor to the full-size original (`str.replace` of the matched text). -/
def linkLine (line : Line) : Line :=
  match reSearch linkToks line with
  | some (old, [img, _]) =>
    listReplace old
      ("<a href=\"/images/".data ++ img ++ "\">".data ++ old ++ "</a>".data)
      line
  | _ => line

/-- `link_images`. -/
def link_images (lines : List Line) : List Line := lines.map linkLine

/-- One line of `open_tabs_when_clicked`: inject `target="_blank"` into
the first bare badge anchor. -/
def tabLine (line : Line) : Line :=
  match reSearch tabToks line with
  | some (old, [url, classes]) =>
    listReplace old
      ("<a href=\"".data ++ url ++ "\" target=\"_blank\"><span class=\"fa ".data ++
        classes ++ "\">".data)
      line
  | _ => line

/-- `open_tabs_when_clicked`. -/
def open_tabs_when_clicked (lines : List Line) : List Line := lines.map tabLine

/-- One line of `generate_tooltips`: classify the anchor URL against
the five known substrings in source order and inject the matching
`title` attribute; unknown URLs fall through unchanged (`continue`). -/
def tooltipLine (line : Line) : Line :=
  match reSearch tooltipToks line with
  | some (old, [url, attrs, classes]) =>
    let mk : Line → Line := fun title =>
      listReplace old
        ("<a href=\"".data ++ url ++ "\" ".data ++ attrs ++ " title=\"".data ++
          title ++ "\"><span class=\"fa ".data ++ classes ++ "\">".data)
        line
    if contains_sub "twitter".data url then mk "Tweet this".data
    else if contains_sub "facebook".data url then mk "Share this on Facebook".data
    else if contains_sub "google".data url then mk "Share this on Google+".data
    else if contains_sub "linkedin".data url then mk "Share this on LinkedIn".data
    else if contains_sub "mailto".data url then mk "Share this by Email".data
    else line
  | _ => line

/-- `generate_tooltips`. -/
def generate_tooltips (lines : List Line) : List Line := lines.map tooltipLine

/-- Python's `str.rstrip()` (ASCII whitespace on this input). -/
def rstrip (l : Line) : Line := (l.reverse.dropWhile isSpaceChar).reverse

/-- The pairwise merge loop of `tidy_html`.  The Python loop iterates
over a snapshot copy `lines[:-1]` while mutating `lines`: a merged-into
comment line is set to `None` and filtered out afterwards.  Because a
consumable line starts with `<!--` or `<p><!--` and a merging line
starts with `</div>`, a line consumed at step `i` can never itself
merge at step `i + 1` (the snapshot value drives that test), and
`lines[i+1]` is never mutated before step `i` reads it; the loop is
therefore exactly this left-to-right scan over the original sequence
that skips both members of a merged pair. -/
def tidy_merge : List Line → List Line
  | l1 :: l2 :: rest =>
    if "</div>".data.isPrefixOf l1 && "<!--".data.isPrefixOf l2 &&
        "-->".data.isSuffixOf (rstrip l2) then
      (l1.dropLast ++ ' ' :: (l2 ++ ['\n'])) :: tidy_merge rest
    else if "</div>".data.isPrefixOf l1 && "<p><!--".data.isPrefixOf l2 &&
        "--></p>".data.isSuffixOf (rstrip l2) then
      (l1.dropLast ++ ' ' :: (((l2.drop 3).take ((l2.drop 3).length - 5)) ++ ['\n'])) ::
        tidy_merge rest
    else l1 :: tidy_merge (l2 :: rest)
  | l => l

/-- `tidy_html`: space around `<hr />` (replace all), the pairwise
`</div>`-comment merge, and a blank line before `<div class="body">`. -/
def tidy_html (lines : List Line) : List Line :=
  let l1 := lines.map (fun line => listReplace "<hr />".data "\n<hr />\n".data line)
  let l2 := tidy_merge l1
  l2.map (fun line =>
    if "<div class=\"body\">".data.isPrefixOf line then '\n' :: line else line)

/-- The stage pipeline of `postprocess()`: legacy fixes, current fixes,
image links, tab behavior, tooltips, tidy.  `adjust_image_urls` is not
called by `postprocess()` in the source. -/
def postprocessLines (lines : List Line) : List Line :=
  tidy_html (generate_tooltips (open_tabs_when_clicked (link_images
    (fix_bugs_in_new_pandoc (fix_bugs_in_old_pandoc lines)))))

/-- The byte stream written by `postprocess()`: `print(''.join(lines))`
appends exactly one newline after the concatenated line sequence. -/
def postprocess (lines : List Line) : Line :=
  (postprocessLines lines).flatten ++ ['\n']

/-! ### Auxiliary definitions used by the verification -/

/-- True when `generate_tooltips` either finds no anchor-plus-badge
match on the line or finds one whose URL contains none of the five
known substrings (the `continue` branch of the source loop). -/
def tooltipNoMatch (line : Line) : Bool :=
  match reSearch tooltipToks line with
  | some (_, [url, _, _]) =>
    !(contains_sub "twitter".data url || contains_sub "facebook".data url ||
      contains_sub "google".data url || contains_sub "linkedin".data url ||
      contains_sub "mailto".data url)
  | _ => true

/-- The sized image tag of the spec's image-link example. -/
def sizedCat : Line := "<img src=\"/images/sized/cat.jpg\" alt=\"c\" />".data

/-- The anchor-wrapped form `link_images` produces for `sizedCat`. -/
def wrapCat : Line := "<a href=\"/images/cat.jpg\">".data ++ sizedCat ++ "</a>".data

/-- A second, distinct sized image tag. -/
def sizedDog : Line := "<img src=\"/images/sized/dog.jpg\" alt=\"d\" />".data

/-- A social-badge anchor with no extra attribute between the href
value and the closing angle bracket. -/
def bareMailto : Line :=
  "<a href=\"mailto:x\"><span class=\"fa fa-envelope badge\"></span></a>\n".data

/-- The same anchor after `open_tabs_when_clicked`. -/
def tabbedMailto : Line :=
  "<a href=\"mailto:x\" target=\"_blank\"><span class=\"fa fa-envelope badge\"></span></a>\n".data

/-- The same anchor after `open_tabs_when_clicked` and `generate_tooltips`. -/
def titledMailto : Line :=
  "<a href=\"mailto:x\" target=\"_blank\" title=\"Share this by Email\"><span class=\"fa fa-envelope badge\"></span></a>\n".data

/-! ### Claim theorems -/

/-- C1 (counterexample): the claim says the full pipeline rewrites
`src="/images/x.png"` to `src="/blog/images/x.png"`, but `postprocess()`
never calls `adjust_image_urls`, so the pipeline returns the line
unchanged and the unchanged line differs from the claimed output. -/
theorem postprocess_skips_url_rewrite_cex :
    postprocessLines ["<img src=\"/images/x.png\">\n".data] =
      ["<img src=\"/images/x.png\">\n".data] ∧
    "<img src=\"/images/x.png\">\n".data ≠ "<img src=\"/blog/images/x.png\">\n".data := by
  exact ⟨by decide, by decide⟩

/-- C1 (amended): `adjust_image_urls` with web-root `/blog` does rewrite
`src="/images/x.png"` to `src="/blog/images/x.png"`, but the stage is
not invoked by `postprocess()`, whose pipeline leaves the line unchanged
and appends only the final newline of `print`. -/
theorem adjust_image_urls_webroot_prefixing :
    adjust_image_urls "/blog".data ["<img src=\"/images/x.png\">\n".data] =
      ["<img src=\"/blog/images/x.png\">\n".data] ∧
    postprocessLines ["<img src=\"/images/x.png\">\n".data] =
      ["<img src=\"/images/x.png\">\n".data] ∧
    postprocess ["<img src=\"/images/x.png\">\n".data] =
      "<img src=\"/images/x.png\">\n\n".data := by
  exact ⟨by decide, by decide, by decide⟩

/-- C2 (counterexample): the h1 pattern `(\s+)<h1 ...` requires at least
one whitespace character before `<h1`, so the claimed input line with no
leading whitespace passes through the Current Bug-Fix Stage unchanged,
and the unchanged line is not the claimed output (with or without its
trailing newline). -/
theorem fix_new_h1_no_leading_ws_cex :
    fix_bugs_in_new_pandoc ["<h1 class=\"x\">12// My Title</h1>\n".data] =
      ["<h1 class=\"x\">12// My Title</h1>\n".data] ∧
    "<h1 class=\"x\">12// My Title</h1>\n".data ≠ "<h1 class=\"x\">12. My Title</h1>".data ∧
    "<h1 class=\"x\">12// My Title</h1>\n".data ≠ "<h1 class=\"x\">12. My Title</h1>\n".data := by
  exact ⟨by decide, by decide, by decide⟩

/-- C2 (amended): on an h1 line with leading whitespace, the Current
Bug-Fix Stage rewrites the `N// ` marker to `N. `, preserving the
leading whitespace and the full attribute string (and discarding the
trailing newline, since the whole line is rebuilt); without leading
whitespace the line is left unchanged. -/
theorem fix_new_h1_requires_leading_ws :
    fix_bugs_in_new_pandoc ["  <h1 class=\"x\">12// My Title</h1>\n".data] =
      ["  <h1 class=\"x\">12. My Title</h1>".data] ∧
    fix_bugs_in_new_pandoc ["<h1 class=\"x\">12// My Title</h1>\n".data] =
      ["<h1 class=\"x\">12// My Title</h1>\n".data] := by
  exact ⟨by decide, by decide⟩

/-- C3 (counterexample): `link_images` is not idempotent — on a line the
first application wraps the sized image in an anchor, and a second
application wraps the (still matching) image tag again. -/
theorem link_images_not_idempotent_cex :
    link_images (link_images ["<img src=\"/images/sized/cat.jpg\" alt=\"c\" />\n".data]) ≠
      link_images ["<img src=\"/images/sized/cat.jpg\" alt=\"c\" />\n".data] := by
  decide

/-- C5 (counterexample): a `</div>` line followed by a full comment line
is merged, but the merged element is `</div> <!-- note -->\n\n` — the
comment keeps its own newline and the code appends another — not the
claimed single line `</div> <!-- note -->` (with or without a trailing
newline). -/
theorem tidy_merge_extra_newline_cex :
    tidy_html ["</div>\n".data, "<!-- note -->\n".data] =
      ["</div> <!-- note -->\n\n".data] ∧
    "</div> <!-- note -->\n\n".data ≠ "</div> <!-- note -->".data ∧
    "</div> <!-- note -->\n\n".data ≠ "</div> <!-- note -->\n".data := by
  exact ⟨by decide, by decide, by decide⟩

/-- C7 (counterexample): `link_images` replaces every occurrence of the
first matched tag text (`str.replace`), so a line holding the same
sized-image tag twice gets both occurrences wrapped, not only the first. -/
theorem link_images_duplicate_tag_cex :
    link_images [sizedCat ++ sizedCat] = [wrapCat ++ wrapCat] ∧
    wrapCat ++ wrapCat ≠ wrapCat ++ sizedCat := by
  exact ⟨by decide, by decide⟩

/-- C7 (amended): `link_images` searches for the first matching sized
image tag of a line and wraps every occurrence of that exact matched
text in an anchor to the full-size original; a second, different
matching tag on the same line is left unwrapped, and the claimed
single-tag example rewrites exactly as stated. -/
theorem link_images_first_match_spec :
    link_images [sizedCat] = [wrapCat] ∧
    link_images [sizedCat ++ sizedDog] = [wrapCat ++ sizedDog] ∧
    link_images [sizedCat ++ sizedCat] = [wrapCat ++ wrapCat] := by
  exact ⟨by decide, by decide, by decide⟩

/-- C8 (confirmed): the written output of `postprocess()` is the
concatenation of the final line sequence plus exactly the one newline
appended by `print`; in particular an already fully post-processed
input passes through every stage unchanged and still gains one newline. -/
theorem postprocess_output_trailing_newline (lines : List Line) :
    postprocess lines = (postprocessLines lines).flatten ++ ['\n'] ∧
    postprocessLines ["<p>x</p>\n".data] = ["<p>x</p>\n".data] ∧
    postprocess ["<p>x</p>\n".data] = "<p>x</p>\n\n".data := by
  exact ⟨rfl, by decide, by decide⟩

/-- C9 (confirmed): when the `<title>` or `<meta>` numbering pattern
matches anywhere in a line, the Current Bug-Fix Stage replaces the
entire line with the rebuilt element, discarding leading whitespace,
surrounding text and the trailing newline; the `<h1>` fix also rebuilds
the whole line but re-emits its captured leading whitespace. -/
theorem fix_new_whole_line_replacement :
    fix_bugs_in_new_pandoc ["  junk <title>3// T</title> tail\n".data] =
      ["<title>3. T</title>".data] ∧
    fix_bugs_in_new_pandoc [" x <meta name=\"t\" content=\"4// U\" /> y\n".data] =
      ["<meta name=\"t\" content=\"4. U\" />".data] ∧
    fix_bugs_in_new_pandoc ["   <h1 class=\"c\">5// V</h1>\n".data] =
      ["   <h1 class=\"c\">5. V</h1>".data] := by
  exact ⟨by decide, by decide, by decide⟩

/-- C10 (confirmed): the tooltip pattern requires an extra attribute
between the href value and the closing bracket, so a bare badge anchor
is untouched by `generate_tooltips` alone; in the pipeline it gains a
tooltip only because `open_tabs_when_clicked` first injects
`target="_blank"` as that extra attribute. -/
theorem tooltip_requires_extra_attribute :
    generate_tooltips [bareMailto] = [bareMailto] ∧
    open_tabs_when_clicked [bareMailto] = [tabbedMailto] ∧
    generate_tooltips [tabbedMailto] = [titledMailto] ∧
    postprocessLines [bareMailto] = [titledMailto] := by
  exact ⟨by decide, by decide, by decide, by decide⟩

/-! ### Idempotence of the legacy replacement -/

/-- `listReplaceF` does not depend on the fuel once the fuel covers the
length of the subject string. -/
theorem listReplaceF_fuel_congr (old new : List Char) :
    ∀ f1 f2 s, s.length ≤ f1 → s.length ≤ f2 →
      listReplaceF old new f1 s = listReplaceF old new f2 s := by
  intro f1
  induction f1 with
  | zero =>
    intro f2 s hs1 _
    have hnil : s = [] := List.length_eq_zero.mp (Nat.le_zero.mp hs1)
    subst hnil
    cases f2 <;> rfl
  | succ f ih =>
    intro f2 s hs1 hs2
    match s with
    | [] => cases f2 <;> rfl
    | c :: rest =>
      match f2 with
      | 0 => simp at hs2
      | g + 1 =>
        simp only [List.length_cons, Nat.add_le_add_iff_right] at hs1 hs2
        simp only [listReplaceF]
        by_cases h : old.isPrefixOf (c :: rest)
        · simp only [h, if_true]
          have hd : (rest.drop (old.length - 1)).length ≤ rest.length := by
            simp [List.length_drop]
          exact congrArg (new ++ ·)
            (ih g _ (le_trans hd hs1) (le_trans hd hs2))
        · simp only [h, if_false]
          exact congrArg (c :: ·) (ih g rest hs1 hs2)

/-- Unfolding equation for `listReplace` on a cons cell. -/
theorem listReplace_cons (old new : List Char) (c : Char) (rest : List Char) :
    listReplace old new (c :: rest) =
      if old.isPrefixOf (c :: rest) then
        new ++ listReplace old new (rest.drop (old.length - 1))
      else
        c :: listReplace old new rest := by
  show listReplaceF old new (rest.length + 1) (c :: rest) = _
  simp only [listReplaceF]
  by_cases h : old.isPrefixOf (c :: rest)
  · rw [if_pos h, if_pos h]
    exact congrArg (new ++ ·)
      (listReplaceF_fuel_congr old new rest.length _ _ (by simp [List.length_drop]) le_rfl)
  · rw [if_neg h, if_neg h]
    rfl

/-- Does `sub` occur as a contiguous substring (Python `in`)?  Listed
here as the proposition-side mirror of `contains_sub`. -/
theorem contains_sub_eq_false_cons (sub : List Char) (c : Char) (rest : List Char) :
    contains_sub sub (c :: rest) = false ↔
      sub.isPrefixOf (c :: rest) = false ∧ contains_sub sub rest = false := by
  simp [contains_sub]

/-- A string with no occurrence of `old` is left unchanged by
`str.replace`. -/
theorem listReplace_of_no_occurrence (old new : List Char) :
    ∀ s, contains_sub old s = false → listReplace old new s = s := by
  intro s
  induction s with
  | nil => intro _; rfl
  | cons c rest ih =>
    intro h
    rw [contains_sub_eq_false_cons] at h
    rw [listReplace_cons, if_neg (by simp [h.1]), ih h.2]

/-- Appending in front of an occurrence-free string stays
occurrence-free as long as the head character of `old` never appears in
the appended part. -/
theorem contains_sub_append_eq_false (oh : Char) (otl : List Char) :
    ∀ x t : List Char, oh ∉ x → contains_sub (oh :: otl) t = false →
      contains_sub (oh :: otl) (x ++ t) = false := by
  intro x
  induction x with
  | nil => intro t _ h; simpa using h
  | cons a x ih =>
    intro t hmem h
    have hne : (oh == a) = false := by
      simp only [List.mem_cons, not_or] at hmem
      simp [beq_eq_false_iff_ne, hmem.1]
    simp only [List.cons_append, contains_sub, List.isPrefixOf, hne,
      Bool.false_and, Bool.false_or]
    exact ih t (fun hm => hmem (List.mem_cons_of_mem _ hm)) h

/-- Any prefix of a replaced string is a prefix of the original string,
unless it runs into an inserted copy of `new` — in which case it
contains the head character of `new`. -/
theorem isPrefixOf_listReplaceF (oh nh : Char) (otl ntl : List Char) :
    ∀ fuel s p, s.length ≤ fuel →
      p.isPrefixOf (listReplaceF (oh :: otl) (nh :: ntl) fuel s) = true →
      p = [] ∨ p.isPrefixOf s = true ∨ nh ∈ p := by
  intro fuel
  induction fuel with
  | zero =>
    intro s p hs hp
    have hnil : s = [] := List.length_eq_zero.mp (Nat.le_zero.mp hs)
    subst hnil
    match p with
    | [] => exact Or.inl rfl
    | q :: qs => simp [listReplaceF, List.isPrefixOf] at hp
  | succ fuel ih =>
    intro s p hs hp
    match s with
    | [] =>
      match p with
      | [] => exact Or.inl rfl
      | q :: qs => simp [listReplaceF, List.isPrefixOf] at hp
    | c :: rest =>
      simp only [List.length_cons, Nat.add_le_add_iff_right] at hs
      simp only [listReplaceF] at hp
      by_cases hpre : (oh :: otl).isPrefixOf (c :: rest)
      · rw [if_pos hpre] at hp
        match p with
        | [] => exact Or.inl rfl
        | q :: qs =>
          have hq : q = nh := by
            simp only [List.cons_append, List.isPrefixOf, Bool.and_eq_true,
              beq_iff_eq] at hp
            exact hp.1
          exact Or.inr (Or.inr (by simp [hq]))
      · rw [if_neg hpre] at hp
        match p with
        | [] => exact Or.inl rfl
        | q :: qs =>
          simp only [List.isPrefixOf, Bool.and_eq_true, beq_iff_eq] at hp
          obtain ⟨hqc, hqs⟩ := hp
          rcases ih rest qs hs hqs with h | h | h
          · subst h
            exact Or.inr (Or.inl (by simp [List.isPrefixOf, hqc]))
          · exact Or.inr (Or.inl (by simp [List.isPrefixOf, hqc, h]))
          · exact Or.inr (Or.inr (List.mem_cons_of_mem _ h))

/-- After one full `str.replace` pass with a nonempty pattern whose head
character does not occur in the replacement and whose characters do not
include the replacement's head character, the pattern no longer occurs
anywhere in the result. -/
theorem contains_sub_listReplaceF (oh nh : Char) (otl ntl : List Char)
    (hA : oh ∉ nh :: ntl) (hB : nh ∉ oh :: otl) :
    ∀ fuel s, s.length ≤ fuel →
      contains_sub (oh :: otl) (listReplaceF (oh :: otl) (nh :: ntl) fuel s) = false := by
  intro fuel
  induction fuel with
  | zero =>
    intro s hs
    have hnil : s = [] := List.length_eq_zero.mp (Nat.le_zero.mp hs)
    subst hnil
    simp [listReplaceF, contains_sub]
  | succ fuel ih =>
    intro s hs
    match s with
    | [] => simp [listReplaceF, contains_sub]
    | c :: rest =>
      simp only [List.length_cons, Nat.add_le_add_iff_right] at hs
      simp only [listReplaceF]
      by_cases hpre : (oh :: otl).isPrefixOf (c :: rest)
      · rw [if_pos hpre]
        refine contains_sub_append_eq_false oh otl (nh :: ntl) _ hA (ih _ ?_)
        calc (rest.drop ((oh :: otl).length - 1)).length
            ≤ rest.length := by simp [List.length_drop]
          _ ≤ fuel := hs
      · rw [if_neg hpre]
        rw [contains_sub_eq_false_cons]
        refine ⟨?_, ih rest hs⟩
        by_contra hcon
        have hx : (oh :: otl).isPrefixOf (c :: listReplaceF (oh :: otl) (nh :: ntl) fuel rest) = true :=
          Bool.not_eq_false _ |>.mp hcon
        simp only [List.isPrefixOf, Bool.and_eq_true, beq_iff_eq] at hx
        obtain ⟨hoc, hotl⟩ := hx
        rcases isPrefixOf_listReplaceF oh nh otl ntl fuel rest otl hs hotl with h | h | h
        · apply hpre
          subst h
          simp [List.isPrefixOf, hoc]
        · apply hpre
          simp [List.isPrefixOf, hoc, h]
        · exact hB (List.mem_cons_of_mem _ h)

/-- `str.replace` is idempotent when the pattern's head never occurs in
the replacement and the replacement's head never occurs in the pattern
(both nonempty). -/
theorem listReplace_idem (oh nh : Char) (otl ntl : List Char)
    (hA : oh ∉ nh :: ntl) (hB : nh ∉ oh :: otl) (s : List Char) :
    listReplace (oh :: otl) (nh :: ntl) (listReplace (oh :: otl) (nh :: ntl) s) =
      listReplace (oh :: otl) (nh :: ntl) s :=
  listReplace_of_no_occurrence _ _ _
    (contains_sub_listReplaceF oh nh otl ntl hA hB s.length s le_rfl)

/-- The pairwise merge never lengthens the line sequence. -/
theorem tidy_merge_length : ∀ l : List Line, (tidy_merge l).length ≤ l.length
  | [] => Nat.le_refl _
  | [_] => Nat.le_refl _
  | l1 :: l2 :: rest => by
    simp only [tidy_merge]
    split
    · have h := tidy_merge_length rest
      simp only [List.length_cons]
      omega
    · split
      · have h := tidy_merge_length rest
        simp only [List.length_cons]
        omega
      · have h := tidy_merge_length (l2 :: rest)
        simp only [List.length_cons] at h ⊢
        omega

/-- C3 (amended): of the five stages only the Legacy Bug-Fix Stage is
idempotent on every input; the URL Rewrite, Image-Link, Tab-Behavior
and Tooltip Stages each have an input on which a second application
changes the output again (the search finds only the first match per
line, so a second pass can pick up a later match, and the tooltip
rewrite re-matches its own output, duplicating the title attribute). -/
theorem stage_idempotence_status :
    (∀ lines, fix_bugs_in_old_pandoc (fix_bugs_in_old_pandoc lines) =
      fix_bugs_in_old_pandoc lines) ∧
    adjust_image_urls "/blog".data (adjust_image_urls "/blog".data
        ["src=\"/images/a.png\" href=\"/images/b.png\"\n".data]) ≠
      adjust_image_urls "/blog".data
        ["src=\"/images/a.png\" href=\"/images/b.png\"\n".data] ∧
    link_images (link_images ["<img src=\"/images/sized/pig.jpg\" alt=\"p\" />\n".data]) ≠
      link_images ["<img src=\"/images/sized/pig.jpg\" alt=\"p\" />\n".data] ∧
    open_tabs_when_clicked (open_tabs_when_clicked
        ["<a href=\"a\"><span class=\"fa x\"> <a href=\"b\"><span class=\"fa y\">\n".data]) ≠
      open_tabs_when_clicked
        ["<a href=\"a\"><span class=\"fa x\"> <a href=\"b\"><span class=\"fa y\">\n".data] ∧
    generate_tooltips (generate_tooltips
        ["<a href=\"http://twitter.com/share\" target=\"_blank\"><span class=\"fa fa-twitter badge\"></span></a>\n".data]) ≠
      generate_tooltips
        ["<a href=\"http://twitter.com/share\" target=\"_blank\"><span class=\"fa fa-twitter badge\"></span></a>\n".data] := by
  refine ⟨?_, by decide, by decide, by decide, by decide⟩
  intro lines
  simp only [fix_bugs_in_old_pandoc, List.map_map]
  refine List.map_congr_left fun l _ => ?_
  show listReplace OLD_SPAN NEW_SPAN (listReplace OLD_SPAN NEW_SPAN l) =
    listReplace OLD_SPAN NEW_SPAN l
  have e1 : OLD_SPAN =
      '&' :: "lt;span class=&quot;fa fa-envelope badge&quot;&gt;&lt;/span&gt;".data := by
    decide
  have e2 : NEW_SPAN = '<' :: "span class=\"fa fa-envelope badge\"></span>".data := by
    decide
  rw [e1, e2]
  exact listReplace_idem _ _ _ _ (by decide) (by decide) l

/-- C4 (confirmed): every stage except Tidy maps the line sequence
elementwise and so preserves its length; the Tidy Stage can only shrink
it (its first and third passes are elementwise, and the pairwise merge
never lengthens). -/
theorem stage_length_invariants (webroot : Line) (lines : List Line) :
    (fix_bugs_in_old_pandoc lines).length = lines.length ∧
    (fix_bugs_in_new_pandoc lines).length = lines.length ∧
    (adjust_image_urls webroot lines).length = lines.length ∧
    (link_images lines).length = lines.length ∧
    (open_tabs_when_clicked lines).length = lines.length ∧
    (generate_tooltips lines).length = lines.length ∧
    (tidy_html lines).length ≤ lines.length := by
  refine ⟨by simp [fix_bugs_in_old_pandoc], by simp [fix_bugs_in_new_pandoc],
    by simp [adjust_image_urls], by simp [link_images],
    by simp [open_tabs_when_clicked], by simp [generate_tooltips], ?_⟩
  have h := tidy_merge_length
    (lines.map (fun line => listReplace "<hr />".data "\n<hr />\n".data line))
  simp only [tidy_html, List.length_map]
  simpa using h

/-- C5 (amended): a line starting with `</div>` followed by a full
bare-comment line merges into the single element
`dropLast l1 ++ " " ++ l2 ++ "\n"` — the comment keeps its own trailing
newline and one more newline is appended — the sequence shrinks by
exactly one at the merge, the consumed comment never serves as the
`</div>` side of a later merge (the scan continues after the pair), and
any following line keeps its position right after the merged element. -/
theorem tidy_merge_spec (l1 l2 : Line) (rest : List Line)
    (h1 : "</div>".data.isPrefixOf l1 = true)
    (h2 : "<!--".data.isPrefixOf l2 = true)
    (h3 : "-->".data.isSuffixOf (rstrip l2) = true) :
    tidy_merge (l1 :: l2 :: rest) =
      (l1.dropLast ++ ' ' :: (l2 ++ ['\n'])) :: tidy_merge rest ∧
    (tidy_merge (l1 :: l2 :: rest)).length = (tidy_merge rest).length + 1 ∧
    tidy_html ["</div>\n".data, "<!-- ok -->\n".data, "<p>q</p>\n".data] =
      ["</div> <!-- ok -->\n\n".data, "<p>q</p>\n".data] := by
  have he : tidy_merge (l1 :: l2 :: rest) =
      (l1.dropLast ++ ' ' :: (l2 ++ ['\n'])) :: tidy_merge rest := by
    simp [tidy_merge, h1, h2, h3]
  exact ⟨he, by rw [he]; simp, by decide⟩

/-- Witness for `tidy_merge_spec` at a concrete merge. -/
theorem tidy_merge_spec_witness :
    "</div>".data.isPrefixOf "</div>x\n".data = true ∧
    "<!--".data.isPrefixOf "<!-- a -->\n".data = true ∧
    "-->".data.isSuffixOf (rstrip "<!-- a -->\n".data) = true ∧
    tidy_merge ["</div>x\n".data, "<!-- a -->\n".data, "tail\n".data] =
      ("</div>x\n".data.dropLast ++ ' ' :: ("<!-- a -->\n".data ++ ['\n'])) ::
        tidy_merge ["tail\n".data] :=
  ⟨by decide, by decide, by decide,
    (tidy_merge_spec "</div>x\n".data "<!-- a -->\n".data ["tail\n".data]
      (by decide) (by decide) (by decide)).1⟩

/-- C6 (confirmed): a line whose matched anchor URL contains none of the
five known substrings — and likewise any line the tooltip pattern does
not match at all — passes through `generate_tooltips` unchanged (the
`continue` branch raises no error), while a mailto anchor followed by a
badge span receives `title="Share this by Email"`. -/
theorem generate_tooltips_spec (line : Line) (h : tooltipNoMatch line = true) :
    tooltipLine line = line ∧ generate_tooltips [line] = [line] ∧
    generate_tooltips ["<a href=\"mailto:?subject=Hi\" target=\"_blank\"><span class=\"fa fa-envelope badge\"></span></a>\n".data] =
      ["<a href=\"mailto:?subject=Hi\" target=\"_blank\" title=\"Share this by Email\"><span class=\"fa fa-envelope badge\"></span></a>\n".data] := by
  have hl : tooltipLine line = line := by
    cases hm : reSearch tooltipToks line with
    | none => simp [tooltipLine, hm]
    | some v =>
      obtain ⟨old, gs⟩ := v
      rcases gs with _ | ⟨u, _ | ⟨a, _ | ⟨cl, _ | ⟨g4, gr⟩⟩⟩⟩
      · simp [tooltipLine, hm]
      · simp [tooltipLine, hm]
      · simp [tooltipLine, hm]
      · simp only [tooltipNoMatch, hm, Bool.not_eq_true', Bool.or_eq_false_iff] at h
        obtain ⟨⟨⟨⟨hc1, hc2⟩, hc3⟩, hc4⟩, hc5⟩ := h
        simp [tooltipLine, hm, hc1, hc2, hc3, hc4, hc5]
      · simp [tooltipLine, hm]
  exact ⟨hl, by simp [generate_tooltips, hl], by decide⟩

/-- Witness for `generate_tooltips_spec` at a concrete unknown-URL line. -/
theorem generate_tooltips_spec_witness :
    tooltipNoMatch "<a href=\"http://example.com/x\" target=\"_blank\"><span class=\"fa fa-plus badge\"></span></a>\n".data = true ∧
    tooltipLine "<a href=\"http://example.com/x\" target=\"_blank\"><span class=\"fa fa-plus badge\"></span></a>\n".data =
      "<a href=\"http://example.com/x\" target=\"_blank\"><span class=\"fa fa-plus badge\"></span></a>\n".data :=
  ⟨by decide,
    (generate_tooltips_spec "<a href=\"http://example.com/x\" target=\"_blank\"><span class=\"fa fa-plus badge\"></span></a>\n".data (by decide)).1⟩
